import Mathlib

/-!
Shallow embedding of the audio acquisition-and-cache pipeline of the
cherifi repository: the AudioService (filesystem-cache variant and
blob-store variant) and the stream route handlers built on top of it.

Modelling conventions:
- The audio directory is a keyed store of file entries (directory-scoped
  names); byte contents are lists of naturals; last-access times are
  integers (milliseconds); sizes are natural numbers of bytes, converted
  to rational megabytes exactly where the code divides by 1024*1024.
- JavaScript numbers that can be NaN (the results of parseInt on the
  Range header) are modelled by the JSNum type with explicit NaN
  propagation through subtraction and addition.
- Fallible filesystem primitives are driven by an error-injection oracle
  (ErrOracle); a function whose JavaScript counterpart catches an error
  and continues is modelled as returning Except.ok with the fallback the
  catch block produces, so that swallowed versus propagated failures are
  visible in the result type.
- External collaborators (yt-dlp, ffmpeg, the B2 blob store, the Track
  table) are driven by oracles describing their outcomes; the service
  code is translated statement by statement from the source.
-/

/-- A JavaScript number restricted to the values that arise in the range
branch of the stream route: an integer or NaN. -/
inductive JSNum where
  | nan : JSNum
  | int : Int → JSNum
deriving DecidableEq, Repr

/-- JavaScript subtraction: NaN propagates. -/
def JSNum.sub : JSNum → JSNum → JSNum
  | JSNum.int a, JSNum.int b => JSNum.int (a - b)
  | _, _ => JSNum.nan

/-- JavaScript addition: NaN propagates. -/
def JSNum.add : JSNum → JSNum → JSNum
  | JSNum.int a, JSNum.int b => JSNum.int (a + b)
  | _, _ => JSNum.nan

/-- How a JavaScript number prints inside a template literal. -/
def JSNum.render : JSNum → String
  | JSNum.nan => "NaN"
  | JSNum.int n => toString n

/-- One file in a directory: its name, its byte size as reported by stat,
its last-access time and its byte content. -/
structure FileEntry where
  name : String
  size : Nat
  atime : Int
  content : List Nat
deriving DecidableEq, Repr

/-- The state of one directory (the audio cache directory or the temp
directory): the list of its files in enumeration order. -/
structure FsState where
  files : List FileEntry
deriving DecidableEq, Repr

/-- Error injection for the underlying filesystem calls: which stat
calls, which unlink calls, and whether the directory listing fail. -/
structure ErrOracle where
  statErr : String → Bool
  readdirErr : Bool
  unlinkErr : String → Bool

/-- The oracle injecting no filesystem failures. -/
def noErr : ErrOracle := ⟨fun _ => false, false, fun _ => false⟩

/-- Directory lookup by file name (the first entry carrying the name). -/
def lookupFile (st : FsState) (name : String) : Option FileEntry :=
  st.files.find? (fun f => f.name == name)

/-- AudioService.fileExists: fs.access wrapped in try/catch, so it is a
boolean existence check. -/
def fileExists (st : FsState) (name : String) : Bool :=
  (lookupFile st name).isSome

/-- Bytes to megabytes, the exact rational counterpart of
stats.size / (1024 * 1024). -/
def mbQ (bytes : Nat) : ℚ := (bytes : ℚ) / 1048576

/-- Extract the value of a fallible computation that in fact always
resolves (the code awaits it without a catch of its own). -/
def okVal (x : Except String ℚ) : ℚ :=
  match x with
  | Except.ok v => v
  | Except.error _ => 0

/-- AudioService.getFileSize: stat the file and convert to MB; any stat
failure (injected error or missing file) is caught and becomes 0. -/
def getFileSize (e : ErrOracle) (st : FsState) (name : String) : Except String ℚ :=
  Except.ok (if e.statErr name then 0
    else match lookupFile st name with
      | some f => mbQ f.size
      | none => 0)

/-- AudioService.getStorageUsage: list the audio directory and sum the
per-file sizes in MB; a listing failure is caught and becomes 0. -/
def getStorageUsage (e : ErrOracle) (st : FsState) : Except String ℚ :=
  Except.ok (if e.readdirErr then 0
    else (st.files.map (fun f => okVal (getFileSize e st f.name))).sum)

/-- Math.ceil(fileStats.length * 0.2) in exact arithmetic. -/
def deleteCount (n : Nat) : Nat := ⌈(n : ℚ) * 0.2⌉₊

/-- The comparator fileStats.sort((a, b) => a.atime - b.atime) as a
boolean order on entries. -/
def atimeLe (a b : FileEntry) : Bool := a.atime ≤ b.atime

/-- The stable sort by ascending last-access time performed by cleanup
(JavaScript Array.prototype.sort is stable). -/
def sortByAtime (l : List FileEntry) : List FileEntry := l.mergeSort atimeLe

/-- The deletion loop of cleanupOldFiles: unlink the selected names one
by one on the current directory state; the first unlink failure (injected
error, or the name being absent) aborts the loop, leaving the earlier
deletions in place. The boolean records whether the loop aborted. -/
def unlinkSeq (e : ErrOracle) : List FileEntry → List String → List FileEntry × Bool
  | fs, [] => (fs, false)
  | fs, n :: ns =>
    if e.unlinkErr n then (fs, true)
    else if fs.any (fun f => f.name == n) then
      unlinkSeq e (fs.filter (fun f => !(f.name == n))) ns
    else (fs, true)

/-- AudioService.cleanupOldFiles: if the total usage exceeds the
configured ceiling, stat every file, sort by oldest access time, and
delete the oldest ceil(20%) of them. The whole body is inside a
try/catch whose catch only logs, so the caller always sees a resolved
promise (the Except component is always ok) and any partial progress at
an injected failure is kept. -/
def cleanupOldFiles (e : ErrOracle) (maxMB : Int) (st : FsState) :
    Except String Unit × FsState :=
  let total := okVal (getStorageUsage e st)
  if total > (maxMB : ℚ) then
    if e.readdirErr then (Except.ok (), st)
    else if st.files.any (fun f => e.statErr f.name) then (Except.ok (), st)
    else
      let sorted := sortByAtime st.files
      let victims := (sorted.take (deleteCount st.files.length)).map (fun f => f.name)
      (Except.ok (), ⟨(unlinkSeq e st.files victims).1⟩)
  else (Except.ok (), st)

/-- AudioService.deleteAudio: unlink audioDir/videoId.mp3; success
returns true, any failure (injected error or missing file) is caught and
returns false. It never rejects. -/
def deleteAudio (e : ErrOracle) (st : FsState) (videoId : String) :
    Except String Bool × FsState :=
  let filename := videoId ++ ".mp3"
  if e.unlinkErr filename then (Except.ok false, st)
  else if fileExists st filename then
    (Except.ok true, ⟨st.files.filter (fun f => !(f.name == filename))⟩)
  else (Except.ok false, st)

/-- Rounding to two decimals, the exact counterpart of
parseFloat(x.toFixed(2)). -/
def round2 (q : ℚ) : ℚ := ((round (q * 100) : ℤ) : ℚ) / 100

/-- The JSON payload of GET /stream/stats/storage. -/
structure StorageStats where
  totalFiles : Nat
  totalSizeMB : ℚ
  maxSizeMB : Int
  usagePercent : ℚ
deriving DecidableEq, Repr

/-- AudioService.getStorageStats: list the directory and report the
aggregate usage; a listing failure is caught and returned to the caller
as an error-message payload (the Except.error component models the
returned json object carrying only an error field, not a rejection). -/
def getStorageStats (e : ErrOracle) (maxMB : Int) (st : FsState) :
    Except String StorageStats :=
  if e.readdirErr then Except.error "readdir failed"
  else
    let total := okVal (getStorageUsage e st)
    Except.ok
      { totalFiles := st.files.length
        totalSizeMB := round2 total
        maxSizeMB := maxMB
        usagePercent := round2 (total / (maxMB : ℚ) * 100) }

/-- String s starts with p. -/
def strStarts (s p : String) : Bool := p.data.isPrefixOf s.data

/-- AudioService.cleanupTempFiles: remove every temp file whose name
starts with videoId_temp; every unlink failure is swallowed. -/
def cleanupTempFiles (temp : FsState) (videoId : String) : FsState :=
  ⟨temp.files.filter (fun f => !(strStarts f.name (videoId ++ "_temp")))⟩

/-- Outcomes of the external tools for one filesystem-variant download:
whether yt-dlp rejects, which file it leaves in the temp directory,
whether ffmpeg rejects, and the produced output file. -/
structure FetchOracle where
  dlErr : Option String
  dlFile : Option FileEntry
  convertErr : Option String
  outSize : Nat
  outAtime : Int
  outContent : List Nat

/-- The value resolved by the filesystem-variant downloadAudio. -/
structure DlResult where
  videoId : String
  filePath : String
  cached : Bool
deriving DecidableEq, Repr

/-- Instrumentation of one downloadAudio call: how many cache existence
checks, extractor (yt-dlp) invocations, transcodes, and cache writes it
performed. -/
structure DlTrace where
  existsChecks : Nat
  extractor : Nat
  transcode : Nat
  put : Nat
deriving DecidableEq, Repr

/-- Result, final directory states and trace of one filesystem-variant
downloadAudio call. -/
structure DlOut where
  res : Except String DlResult
  audio : FsState
  temp : FsState
  trace : DlTrace

/-- AudioService.downloadAudio, filesystem-cache variant: return the
cached file if it exists; otherwise download with yt-dlp into the temp
directory, locate the downloaded file by its videoId_temp name, convert
it to the normalized MP3 in the audio directory, remove the temp file,
and run the capacity cleanup. Any failure wipes the temp files for this
videoId and rejects with the wrapped message. -/
def downloadAudioFs (o : FetchOracle) (e : ErrOracle) (maxMB : Int)
    (audio temp : FsState) (videoId : String) : DlOut :=
  let outputFilename := videoId ++ ".mp3"
  if fileExists audio outputFilename then
    { res := Except.ok ⟨videoId, outputFilename, true⟩
      audio := audio, temp := temp
      trace := ⟨1, 0, 0, 0⟩ }
  else
    match o.dlErr with
    | some m =>
      { res := Except.error ("Failed to download audio: " ++ m)
        audio := audio, temp := cleanupTempFiles temp videoId
        trace := ⟨1, 1, 0, 0⟩ }
    | none =>
      let temp1 : FsState := ⟨temp.files ++ o.dlFile.toList⟩
      match temp1.files.find? (fun f => strStarts f.name (videoId ++ "_temp")) with
      | none =>
        { res := Except.error ("Failed to download audio: Downloaded file not found")
          audio := audio, temp := cleanupTempFiles temp1 videoId
          trace := ⟨1, 1, 0, 0⟩ }
      | some df =>
        match o.convertErr with
        | some m =>
          { res := Except.error ("Failed to download audio: " ++ m)
            audio := audio, temp := cleanupTempFiles temp1 videoId
            trace := ⟨1, 1, 1, 0⟩ }
        | none =>
          let newEntry : FileEntry := ⟨outputFilename, o.outSize, o.outAtime, o.outContent⟩
          let audio1 : FsState := ⟨audio.files ++ [newEntry]⟩
          let temp2 : FsState := ⟨temp1.files.filter (fun f => !(f.name == df.name))⟩
          { res := Except.ok ⟨videoId, outputFilename, false⟩
            audio := (cleanupOldFiles e maxMB audio1).2
            temp := temp2
            trace := ⟨1, 1, 1, 1⟩ }

/-- The validation regex of the stream routes:
matches of [a-zA-Z0-9_-] repeated exactly 11 times, anchored. -/
def isValidVideoId (s : String) : Bool :=
  s.length == 11 && s.data.all (fun c => c.isAlphanum || c == '_' || c == '-')

/-- JavaScript parseInt applied to a character list: skip leading
whitespace, read an optional sign, then the leading run of digits; the
result is NaN when that run is empty, trailing garbage is ignored. -/
def parseIntFrom (l : List Char) : JSNum :=
  let core : List Char → Nat := fun ds =>
    ds.foldl (fun a c => a * 10 + (c.toNat - 48)) 0
  match l.dropWhile (fun c => c == ' ' || c == '\t' || c == '\n' || c == '\r') with
  | '-' :: rest =>
    let ds := rest.takeWhile Char.isDigit
    if ds.isEmpty then JSNum.nan else JSNum.int (-(core ds : Int))
  | '+' :: rest =>
    let ds := rest.takeWhile Char.isDigit
    if ds.isEmpty then JSNum.nan else JSNum.int (core ds)
  | other =>
    let ds := other.takeWhile Char.isDigit
    if ds.isEmpty then JSNum.nan else JSNum.int (core ds)

/-- parseInt(s, 10). -/
def parseIntNaN (s : String) : JSNum := parseIntFrom s.data

/-- String.prototype.split with a one-character separator. -/
def splitOnCharAux (c : Char) : List Char → List Char → List String
  | [], acc => [String.mk acc.reverse]
  | x :: xs, acc =>
    if x == c then String.mk acc.reverse :: splitOnCharAux c xs []
    else splitOnCharAux c xs (x :: acc)

/-- range.split('-') for a one-character separator. -/
def jsSplitOnChar (c : Char) (s : String) : List String :=
  splitOnCharAux c s.data []

/-- Remove the first occurrence of pat, the effect of
s.replace(/pat/, '') for a literal pattern. -/
def stripSubAux (pat : List Char) : List Char → List Char
  | [] => []
  | x :: xs =>
    if pat.isPrefixOf (x :: xs) then (x :: xs).drop pat.length
    else x :: stripSubAux pat xs

/-- range.replace(/bytes=/, ''). -/
def jsReplaceFirst (pat s : String) : String :=
  String.mk (stripSubAux pat.data s.data)

/-- The parts array range.replace(/bytes=/, '').split('-'). -/
def rangeParts (range : String) : List String :=
  jsSplitOnChar '-' (jsReplaceFirst "bytes=" range)

/-- The start and end positions the stream route computes from a Range
header: start = parseInt(parts[0], 10); end = parts[1] present and
non-empty ? parseInt(parts[1], 10) : fileSize - 1. -/
def parseRangeHeader (range : String) (fileSize : Nat) : JSNum × JSNum :=
  let parts := rangeParts range
  let startN := parseIntNaN (parts.headD "")
  let p1 := parts.getD 1 ""
  let endN := if p1 ≠ "" then parseIntNaN p1 else JSNum.int ((fileSize : Int) - 1)
  (startN, endN)

/-- fs.createReadStream(filePath, start, end): Node validates the start
and end options synchronously and throws ERR_OUT_OF_RANGE when either is
NaN or negative or when start exceeds end; otherwise the stream delivers
the inclusive byte range [start, end] of the content, truncated at end
of file. -/
def createReadStreamSlice (content : List Nat) : JSNum → JSNum → Except String (List Nat)
  | JSNum.int s, JSNum.int e =>
    if s < 0 ∨ e < 0 ∨ e < s then Except.error "ERR_OUT_OF_RANGE"
    else Except.ok ((content.drop s.toNat).take (e - s + 1).toNat)
  | _, _ => Except.error "ERR_OUT_OF_RANGE"

/-- The response surface of the route handlers: status, the json error
message, the serving headers, the body bytes, a redirect target and the
json info fields. -/
structure HttpResponse where
  status : Nat
  errorMsg : Option String := none
  contentRange : Option String := none
  contentLength : Option JSNum := none
  contentType : Option String := none
  body : List Nat := []
  redirectTo : Option String := none
  jsonCached : Option Bool := none
  jsonFileSize : Option Nat := none
  jsonTitle : Option String := none
  jsonArtist : Option String := none
deriving DecidableEq, Repr

/-- The serving tail of GET /stream/:videoId in the filesystem variant:
with a truthy Range header, parse start-end, compute the chunk size,
construct the read stream (fs.createReadStream at line 52 runs before
res.writeHead(206) at line 54, so its synchronous validation throw
escapes to the route catch before any header is written) and answer 206
with Content-Range, chunk length and the partial stream; otherwise
answer 200 with the whole file. -/
def serveFile (content : List Nat) (fileSize : Nat) (range : Option String) :
    Except String HttpResponse :=
  let r := range.getD ""
  if r ≠ "" then
    let p := parseRangeHeader r fileSize
    let chunkSize := (p.2.sub p.1).add (JSNum.int 1)
    match createReadStreamSlice content p.1 p.2 with
    | Except.error m => Except.error m
    | Except.ok bytes =>
      Except.ok
        { status := 206
          contentRange := some ("bytes " ++ p.1.render ++ "-" ++ p.2.render ++ "/" ++ Nat.repr fileSize)
          contentLength := some chunkSize
          contentType := some "audio/mpeg"
          body := bytes }
  else
    Except.ok
      { status := 200
        contentLength := some (JSNum.int (fileSize : Int))
        contentType := some "audio/mpeg"
        body := content }

/-- Result of one filesystem-variant route handler call: the response,
whether the 400 validation branch fired, the final directory states and
the instrumentation of the AudioService calls it made. -/
structure FsHandlerOut where
  resp : HttpResponse
  rejectedInvalid : Bool
  audio : FsState
  temp : FsState
  trace : DlTrace

/-- GET /stream/:videoId, filesystem variant: validate the id shape,
download or reuse the cached file, then serve it with range support. -/
def streamHandlerFs (o : FetchOracle) (e : ErrOracle) (maxMB : Int)
    (audio temp : FsState) (range : Option String) (videoId : String) :
    FsHandlerOut :=
  if !(isValidVideoId videoId) then
    { resp := { status := 400, errorMsg := some "Invalid video ID" }
      rejectedInvalid := true, audio := audio, temp := temp, trace := ⟨0, 0, 0, 0⟩ }
  else
    let d := downloadAudioFs o e maxMB audio temp videoId
    match d.res with
    | Except.error _ =>
      { resp := { status := 500, errorMsg := some "Streaming failed" }
        rejectedInvalid := false, audio := d.audio, temp := d.temp, trace := d.trace }
    | Except.ok r =>
      match lookupFile d.audio r.filePath with
      | none =>
        { resp := { status := 404, errorMsg := some "Audio file not found" }
          rejectedInvalid := false, audio := d.audio, temp := d.temp, trace := d.trace }
      | some f =>
        { resp :=
            (match serveFile f.content f.size range with
             | Except.error _ => { status := 500, errorMsg := some "Streaming failed" }
             | Except.ok r2 => r2)
          rejectedInvalid := false, audio := d.audio, temp := d.temp, trace := d.trace }

/-- GET /stream/info/:videoId, filesystem variant: no validation; it
calls downloadAudio and reports the file stats. -/
def infoHandlerFs (o : FetchOracle) (e : ErrOracle) (maxMB : Int)
    (audio temp : FsState) (videoId : String) : FsHandlerOut :=
  let d := downloadAudioFs o e maxMB audio temp videoId
  { resp :=
      (match d.res with
       | Except.error _ => { status := 500, errorMsg := some "Failed to get audio info" }
       | Except.ok r =>
         match lookupFile d.audio r.filePath with
         | none => { status := 404, errorMsg := some "Audio file not found" }
         | some f => { status := 200, jsonCached := some r.cached, jsonFileSize := some f.size })
    rejectedInvalid := false, audio := d.audio, temp := d.temp, trace := d.trace }

/-- Result of the DELETE handler. -/
structure DeleteOut where
  resp : HttpResponse
  rejectedInvalid : Bool
  audio : FsState

/-- DELETE /stream/:videoId: no validation; 200 when deleteAudio returns
true, 404 when it returns false, 500 only if it rejected. -/
def deleteHandlerFs (e : ErrOracle) (st : FsState) (videoId : String) : DeleteOut :=
  let d := deleteAudio e st videoId
  { resp :=
      (match d.1 with
       | Except.ok true => { status := 200 }
       | Except.ok false => { status := 404, errorMsg := some "Audio file not found" }
       | Except.error _ => { status := 500, errorMsg := some "Failed to delete audio" })
    rejectedInvalid := false, audio := d.2 }

/-- One row of the Track table used by the blob-store variant. -/
structure TrackRow where
  videoId : String
  title : String
  artist : String
  album : String
  coverUrl : String
  duration : Nat
  channelTitle : String
  viewCount : Nat
deriving DecidableEq, Repr

/-- The metadata object the blob-store downloadAudio builds. -/
structure AudioMeta where
  title : String
  artist : String
  album : String
  thumbnail : String
  duration : Nat
  uploader : String
  channel : String
  viewCount : Nat
deriving DecidableEq, Repr

/-- The raw yt-dlp dump-single-json fields, each possibly absent. -/
structure RawInfo where
  title : Option String
  artist : Option String
  uploader : Option String
  album : Option String
  thumbnail : Option String
  duration : Option Nat
  channel : Option String
  viewCount : Option Nat

/-- The best-effort metadata defaults of the blob-store downloadAudio
(the thumbnails-array fallback is folded into the thumbnail default). -/
def mkMeta (i : RawInfo) : AudioMeta :=
  { title := i.title.getD "Unknown Title"
    artist := (i.artist.orElse (fun _ => i.uploader)).getD "Unknown Artist"
    album := i.album.getD "YouTube Music"
    thumbnail := i.thumbnail.getD ""
    duration := i.duration.getD 0
    uploader := i.uploader.getD "Unknown"
    channel := (i.channel.orElse (fun _ => i.uploader)).getD "Unknown"
    viewCount := i.viewCount.getD 0 }

/-- The world of the blob-store variant: the bucket contents, the Track
table, and the local temp directory. -/
structure B2World where
  b2 : List String
  tracks : List TrackRow
  temp : FsState

/-- Outcomes of the external collaborators for one blob-store download:
metadata fetch, audio download, the per-attempt results of fs.access
during the readiness polling, upload, the temp file size, the database
save, and the signed-url generator. -/
structure B2Oracle where
  metaErr : Option String
  info : RawInfo
  dlErr : Option String
  access : Nat → Bool
  uploadErr : Option String
  tempSize : Nat
  saveErr : Option String
  urlFor : String → String

/-- The file-readiness polling loop of the blob-store downloadAudio:
while (!fileReady && attempts < 10) { sleep 500; try access } — fuel is
the remaining failure budget, the second component counts the access
polls performed so far. -/
def pollFrom (access : Nat → Bool) : Nat → Nat → Bool × Nat
  | 0, polls => (false, polls)
  | fuel + 1, polls =>
    if access polls then (true, polls + 1)
    else pollFrom access fuel (polls + 1)

/-- Track.findByVideoId. -/
def findTrack (tracks : List TrackRow) (videoId : String) : Option TrackRow :=
  tracks.find? (fun t => t.videoId == videoId)

/-- Track.save: upsert by videoId. -/
def saveTrack (tracks : List TrackRow) (t : TrackRow) : List TrackRow :=
  if tracks.any (fun u => u.videoId == t.videoId) then
    tracks.map (fun u => if u.videoId == t.videoId then t else u)
  else tracks ++ [t]

/-- The metadata view of a Track row returned on a B2 cache hit. -/
def trackToMeta (t : TrackRow) : AudioMeta :=
  { title := t.title, artist := t.artist, album := t.album
    thumbnail := t.coverUrl, duration := t.duration
    uploader := t.channelTitle, channel := t.channelTitle
    viewCount := t.viewCount }

/-- The value resolved by the blob-store downloadAudio. -/
structure B2Result where
  videoId : String
  streamUrl : String
  cached : Bool
  metadata : Option AudioMeta
deriving DecidableEq, Repr

/-- Instrumentation of one blob-store downloadAudio call. -/
structure B2Trace where
  b2ExistsChecks : Nat
  extractor : Nat
  upload : Nat
deriving DecidableEq, Repr

/-- Result, final world and trace of one blob-store downloadAudio. -/
structure B2Out where
  res : Except String B2Result
  world : B2World
  trace : B2Trace

/-- Remove one named file from the temp directory (the
fs.unlink(tempPath).catch(() => ...) cleanup). -/
def removeTemp (temp : FsState) (filename : String) : FsState :=
  ⟨temp.files.filter (fun f => !(f.name == filename))⟩

/-- AudioService.downloadAudio, blob-store variant: B2 cache hit returns
a signed url with the stored metadata; otherwise fetch metadata, download
the audio, poll up to 10 times for the temp file to become readable,
upload to B2, save the Track row, clean the temp file and return the
signed url. Failures clean the temp file and rethrow. -/
def downloadAudioB2 (o : B2Oracle) (w : B2World) (videoId : String) : B2Out :=
  let filename := videoId ++ ".mp3"
  if w.b2.contains filename then
    { res := Except.ok ⟨videoId, o.urlFor filename, true, (findTrack w.tracks videoId).map trackToMeta⟩
      world := w, trace := ⟨1, 0, 0⟩ }
  else
    match o.metaErr with
    | some m =>
      { res := Except.error m
        world := { w with temp := removeTemp w.temp filename }, trace := ⟨1, 1, 0⟩ }
    | none =>
      let meta := mkMeta o.info
      match o.dlErr with
      | some m =>
        { res := Except.error m
          world := { w with temp := removeTemp w.temp filename }, trace := ⟨1, 2, 0⟩ }
      | none =>
        let temp1 : FsState := ⟨w.temp.files ++ [⟨filename, o.tempSize, 0, []⟩]⟩
        let pr := pollFrom o.access 10 0
        if !pr.1 then
          { res := Except.error "Download completed but file not accessible"
            world := { w with temp := removeTemp temp1 filename }, trace := ⟨1, 2, 0⟩ }
        else
          match o.uploadErr with
          | some m =>
            { res := Except.error m
              world := { w with temp := removeTemp temp1 filename }, trace := ⟨1, 2, 1⟩ }
          | none =>
            match o.saveErr with
            | some m =>
              { res := Except.error m
                world := { b2 := w.b2 ++ [filename]
                           tracks := w.tracks
                           temp := removeTemp temp1 filename }
                trace := ⟨1, 2, 1⟩ }
            | none =>
              { res := Except.ok ⟨videoId, o.urlFor filename, false, some meta⟩
                world := { b2 := w.b2 ++ [filename]
                           tracks := saveTrack w.tracks
                             { videoId := videoId, title := meta.title, artist := meta.artist
                               album := meta.album, coverUrl := meta.thumbnail
                               duration := meta.duration, channelTitle := meta.uploader
                               viewCount := meta.viewCount }
                           temp := removeTemp temp1 filename }
                trace := ⟨1, 2, 1⟩ }

/-- Result of one blob-store route handler call. -/
structure B2HandlerOut where
  resp : HttpResponse
  rejectedInvalid : Bool
  world : B2World
  trace : B2Trace

/-- GET /stream/:videoId, blob-store variant: validate the id shape then
redirect to the signed url. -/
def streamHandlerB2 (o : B2Oracle) (w : B2World) (videoId : String) : B2HandlerOut :=
  if !(isValidVideoId videoId) then
    { resp := { status := 400, errorMsg := some "Invalid video ID" }
      rejectedInvalid := true, world := w, trace := ⟨0, 0, 0⟩ }
  else
    let d := downloadAudioB2 o w videoId
    { resp :=
        (match d.res with
         | Except.error _ => { status := 500, errorMsg := some "Streaming failed" }
         | Except.ok r => { status := 302, redirectTo := some r.streamUrl })
      rejectedInvalid := false, world := d.world, trace := d.trace }

/-- GET /stream/info/:videoId, blob-store variant: a pure Track table
lookup, no validation and no download. -/
def infoHandlerB2 (w : B2World) (videoId : String) : B2HandlerOut :=
  let track := findTrack w.tracks videoId
  { resp := { status := 200
              jsonTitle := some ((track.map (fun t => t.title)).getD "Unknown")
              jsonArtist := some ((track.map (fun t => t.artist)).getD "Unknown")
              jsonCached := some track.isSome }
    rejectedInvalid := false, world := w, trace := ⟨0, 0, 0⟩ }

/-! Concrete states and oracles used by the closed instances below. -/

/-- A fetch oracle on which every external step succeeds. -/
def oFetchOk : FetchOracle :=
  { dlErr := none, dlFile := some ⟨"dQw4w9WgXcQ_temp.m4a", 3, 7, [1, 2, 3]⟩
    convertErr := none, outSize := 3, outAtime := 8, outContent := [9, 9, 9] }

/-- A fetch oracle on which yt-dlp rejects. -/
def oFetchFail : FetchOracle :=
  { dlErr := some "boom", dlFile := none, convertErr := none
    outSize := 0, outAtime := 0, outContent := [] }

/-- A blob-store oracle on which the temp file never becomes readable. -/
def oB2Stuck : B2Oracle :=
  { metaErr := none, info := ⟨none, none, none, none, none, none, none, none⟩
    dlErr := none, access := fun _ => false, uploadErr := none
    tempSize := 3, saveErr := none, urlFor := fun s => "https://b2.example/" ++ s }

/-- An error oracle failing stat on a.mp3 and unlink on b.mp3. -/
def eBad : ErrOracle :=
  ⟨fun n => n == "a.mp3", false, fun n => n == "b.mp3"⟩

/-- A two-file cache directory. -/
def stBad : FsState :=
  ⟨[⟨"a.mp3", 1048576, 0, []⟩, ⟨"b.mp3", 1048576, 5, []⟩]⟩

/-- A cache directory holding 5 MB of audio (2 MB then 3 MB, the newer
file enumerated first). -/
def stC1 : FsState :=
  ⟨[⟨"a.mp3", 2097152, 10, []⟩, ⟨"b.mp3", 3145728, 5, []⟩]⟩

/-- A cache directory holding one valid-id asset of 5 bytes. -/
def stServe : FsState :=
  ⟨[⟨"abcdefghijk.mp3", 5, 0, [10, 11, 12, 13, 14]⟩]⟩

/-! Helper lemmas about the polling loop. -/

theorem pollFrom_le (access : Nat → Bool) :
    ∀ (fuel k : Nat), (pollFrom access fuel k).2 ≤ k + fuel := by
  intro fuel
  induction fuel with
  | zero => intro k; simp [pollFrom]
  | succ n ih =>
    intro k
    rw [pollFrom]
    by_cases hk : access k = true
    · rw [if_pos hk]
      show k + 1 ≤ k + (n + 1)
      omega
    · rw [if_neg hk]
      calc (pollFrom access n (k + 1)).2 ≤ (k + 1) + n := ih (k + 1)
        _ = k + (n + 1) := by omega

theorem pollFrom_never (access : Nat → Bool) :
    ∀ (fuel k : Nat), (∀ i, i < k + fuel → access i = false) →
      pollFrom access fuel k = (false, k + fuel) := by
  intro fuel
  induction fuel with
  | zero => intro k _; simp [pollFrom]
  | succ n ih =>
    intro k h
    rw [pollFrom]
    have hk : ¬ (access k = true) := by
      rw [h k (by omega)]
      exact Bool.false_ne_true
    rw [if_neg hk]
    have := ih (k + 1) (fun i hi => h i (by omega))
    rw [this]
    congr 1
    omega

/-- Helper: every branch of the filesystem downloadAudio performs exactly
one cache existence check. -/
theorem downloadAudioFs_existsChecks (o : FetchOracle) (e : ErrOracle) (maxMB : Int)
    (audio temp : FsState) (id : String) :
    (downloadAudioFs o e maxMB audio temp id).trace.existsChecks = 1 := by
  unfold downloadAudioFs
  by_cases hex : fileExists audio (id ++ ".mp3") = true
  · rw [if_pos hex]
  · rw [if_neg hex]
    cases o.dlErr with
    | some m => rfl
    | none =>
      cases hfind : (FsState.mk (temp.files ++ o.dlFile.toList)).files.find?
          (fun f => strStarts f.name (id ++ "_temp")) with
      | none => simp only [hfind]
      | some df =>
        simp only [hfind]
        cases o.convertErr with
        | some m => rfl
        | none => rfl

/-- Helper: when the asset is not cached, the filesystem downloadAudio
invokes the extractor exactly once. -/
theorem downloadAudioFs_extractor (o : FetchOracle) (e : ErrOracle) (maxMB : Int)
    (audio temp : FsState) (id : String)
    (hex : fileExists audio (id ++ ".mp3") = false) :
    (downloadAudioFs o e maxMB audio temp id).trace.extractor = 1 := by
  unfold downloadAudioFs
  rw [if_neg (by rw [hex]; exact Bool.false_ne_true)]
  cases o.dlErr with
  | some m => rfl
  | none =>
    cases hfind : (FsState.mk (temp.files ++ o.dlFile.toList)).files.find?
        (fun f => strStarts f.name (id ++ "_temp")) with
    | none => simp only [hfind]
    | some df =>
      simp only [hfind]
      cases o.convertErr with
      | some m => rfl
      | none => rfl

/-- Claim C3: an identifier that is not exactly 11 characters from
[A-Za-z0-9_-] makes the GET stream handler (both variants) answer 400
with error Invalid video ID, flag the validation rejection, perform no
cache-store or source-fetcher call and leave the state untouched, while
a well-shaped identifier never takes the 400 validation branch. -/
theorem claim_c3 (o : FetchOracle) (e : ErrOracle) (maxMB : Int) (audio temp : FsState)
    (range : Option String) (ob : B2Oracle) (w : B2World) (id : String) :
    (isValidVideoId id = true ↔
      (id.length = 11 ∧ ∀ c ∈ id.data, (c.isAlphanum || c == '_' || c == '-') = true)) ∧
    (isValidVideoId id = false →
      (streamHandlerFs o e maxMB audio temp range id).resp.status = 400 ∧
      (streamHandlerFs o e maxMB audio temp range id).resp.errorMsg = some "Invalid video ID" ∧
      (streamHandlerFs o e maxMB audio temp range id).rejectedInvalid = true ∧
      (streamHandlerFs o e maxMB audio temp range id).trace = ⟨0, 0, 0, 0⟩ ∧
      (streamHandlerFs o e maxMB audio temp range id).audio = audio ∧
      (streamHandlerFs o e maxMB audio temp range id).temp = temp ∧
      (streamHandlerB2 ob w id).resp.status = 400 ∧
      (streamHandlerB2 ob w id).resp.errorMsg = some "Invalid video ID" ∧
      (streamHandlerB2 ob w id).rejectedInvalid = true ∧
      (streamHandlerB2 ob w id).trace = ⟨0, 0, 0⟩ ∧
      (streamHandlerB2 ob w id).world = w) ∧
    (isValidVideoId id = true →
      (streamHandlerFs o e maxMB audio temp range id).rejectedInvalid = false ∧
      (streamHandlerB2 ob w id).rejectedInvalid = false) := by
  refine ⟨?_, ?_, ?_⟩
  · simp [isValidVideoId, List.all_eq_true]
  · intro h
    rw [streamHandlerFs, streamHandlerB2]
    rw [if_pos (by rw [h]; rfl), if_pos (by rw [h]; rfl)]
    exact ⟨rfl, rfl, rfl, rfl, rfl, rfl, rfl, rfl, rfl, rfl, rfl⟩
  · intro h
    rw [streamHandlerFs, streamHandlerB2]
    rw [if_neg (by rw [h]; exact Bool.false_ne_true),
        if_neg (by rw [h]; exact Bool.false_ne_true)]
    constructor
    · cases hres : (downloadAudioFs o e maxMB audio temp id).res with
      | error m => simp only [hres]
      | ok r =>
        simp only [hres]
        cases hl : lookupFile (downloadAudioFs o e maxMB audio temp id).audio r.filePath with
        | none => simp only [hl]
        | some f => simp only [hl]
    · cases hres : (downloadAudioB2 ob w id).res with
      | error m => simp only [hres]
      | ok r => simp only [hres]

/-- Witness for C3 at the concrete identifiers short (5 characters,
rejected with 400 and no service calls) and dQw4w9WgXcQ (well-shaped,
validation branch not taken). -/
theorem claim_c3_witness :
    isValidVideoId "short" = false ∧
    (streamHandlerFs oFetchOk noErr 5000 stServe ⟨[]⟩ none "short").resp.status = 400 ∧
    (streamHandlerFs oFetchOk noErr 5000 stServe ⟨[]⟩ none "short").trace = ⟨0, 0, 0, 0⟩ ∧
    isValidVideoId "dQw4w9WgXcQ" = true ∧
    (streamHandlerFs oFetchOk noErr 5000 stServe ⟨[]⟩ none "dQw4w9WgXcQ").rejectedInvalid = false := by
  refine ⟨by decide, ?_, ?_, by decide, ?_⟩
  · exact ((claim_c3 oFetchOk noErr 5000 stServe ⟨[]⟩ none oB2Stuck ⟨[], [], ⟨[]⟩⟩ "short").2.1
      (by decide)).1
  · exact ((claim_c3 oFetchOk noErr 5000 stServe ⟨[]⟩ none oB2Stuck ⟨[], [], ⟨[]⟩⟩ "short").2.1
      (by decide)).2.2.2.1
  · exact ((claim_c3 oFetchOk noErr 5000 stServe ⟨[]⟩ none oB2Stuck ⟨[], [], ⟨[]⟩⟩ "dQw4w9WgXcQ").2.2
      (by decide)).1

/-- Claim C4: a cached asset makes downloadAudio (both variants) return
cached true with no extractor, transcode or cache-write call and an
unchanged state, and the fetch path runs only when the existence check
came back false. -/
theorem claim_c4 (o : FetchOracle) (e : ErrOracle) (maxMB : Int) (audio temp : FsState)
    (ob : B2Oracle) (w : B2World) (id : String) :
    (fileExists audio (id ++ ".mp3") = true →
      (downloadAudioFs o e maxMB audio temp id).res = Except.ok ⟨id, id ++ ".mp3", true⟩ ∧
      (downloadAudioFs o e maxMB audio temp id).trace = ⟨1, 0, 0, 0⟩ ∧
      (downloadAudioFs o e maxMB audio temp id).audio = audio ∧
      (downloadAudioFs o e maxMB audio temp id).temp = temp) ∧
    ((downloadAudioFs o e maxMB audio temp id).trace.extractor ≠ 0 →
      fileExists audio (id ++ ".mp3") = false) ∧
    (w.b2.contains (id ++ ".mp3") = true →
      (downloadAudioB2 ob w id).res =
        Except.ok ⟨id, ob.urlFor (id ++ ".mp3"), true, (findTrack w.tracks id).map trackToMeta⟩ ∧
      (downloadAudioB2 ob w id).trace = ⟨1, 0, 0⟩ ∧
      (downloadAudioB2 ob w id).world = w) ∧
    ((downloadAudioB2 ob w id).trace.extractor ≠ 0 →
      w.b2.contains (id ++ ".mp3") = false) := by
  refine ⟨?_, ?_, ?_, ?_⟩
  · intro hex
    rw [downloadAudioFs, if_pos hex]
    exact ⟨rfl, rfl, rfl, rfl⟩
  · intro hne
    by_cases hex : fileExists audio (id ++ ".mp3") = true
    · exfalso
      apply hne
      rw [downloadAudioFs, if_pos hex]
    · simpa using hex
  · intro hb2
    rw [downloadAudioB2, if_pos hb2]
    exact ⟨rfl, rfl, rfl⟩
  · intro hne
    by_cases hb2 : w.b2.contains (id ++ ".mp3") = true
    · exfalso
      apply hne
      rw [downloadAudioB2, if_pos hb2]
    · simpa using hb2

/-- Witness for C4 at a one-asset cache (filesystem variant) and a
one-object bucket (blob-store variant). -/
theorem claim_c4_witness :
    fileExists stServe ("abcdefghijk" ++ ".mp3") = true ∧
    (downloadAudioFs oFetchOk noErr 5000 stServe ⟨[]⟩ "abcdefghijk").res =
      Except.ok ⟨"abcdefghijk", "abcdefghijk" ++ ".mp3", true⟩ ∧
    (downloadAudioFs oFetchOk noErr 5000 stServe ⟨[]⟩ "abcdefghijk").trace = ⟨1, 0, 0, 0⟩ ∧
    ([("dQw4w9WgXcQ.mp3" : String)].contains ("dQw4w9WgXcQ" ++ ".mp3") = true) ∧
    (downloadAudioB2 oB2Stuck ⟨["dQw4w9WgXcQ.mp3"], [], ⟨[]⟩⟩ "dQw4w9WgXcQ").trace = ⟨1, 0, 0⟩ := by
  refine ⟨by decide, ?_, ?_, by decide, ?_⟩
  · exact ((claim_c4 oFetchOk noErr 5000 stServe ⟨[]⟩ oB2Stuck ⟨[], [], ⟨[]⟩⟩ "abcdefghijk").1
      (by decide)).1
  · exact ((claim_c4 oFetchOk noErr 5000 stServe ⟨[]⟩ oB2Stuck ⟨[], [], ⟨[]⟩⟩ "abcdefghijk").1
      (by decide)).2.1
  · exact ((claim_c4 oFetchOk noErr 5000 stServe ⟨[]⟩ oB2Stuck
      ⟨["dQw4w9WgXcQ.mp3"], [], ⟨[]⟩⟩ "dQw4w9WgXcQ").2.2.1 (by decide)).2.1

/-- Claim C8: the file-readiness wait is bounded by 10 polls, and when
the file stays inaccessible through the whole retry budget the blob-store
downloadAudio rejects the fetch with the download-incomplete error. -/
theorem claim_c8 (o : B2Oracle) (w : B2World) (id : String) :
    (pollFrom o.access 10 0).2 ≤ 10 ∧
    (w.b2.contains (id ++ ".mp3") = false → o.metaErr = none → o.dlErr = none →
      (∀ i, i < 10 → o.access i = false) →
      (downloadAudioB2 o w id).res =
        Except.error "Download completed but file not accessible") := by
  constructor
  · exact pollFrom_le o.access 10 0
  · intro hb2 hmeta hdl hacc
    have hpoll : pollFrom o.access 10 0 = (false, 10) :=
      pollFrom_never o.access 10 0 (fun i hi => hacc i hi)
    rw [downloadAudioB2, if_neg (by rw [hb2]; exact Bool.false_ne_true), hmeta, hdl]
    simp only [hpoll]
    rfl

/-- Witness for C8: an empty bucket, healthy metadata and download steps,
and a temp file that never becomes accessible. -/
theorem claim_c8_witness :
    ([] : List String).contains ("dQw4w9WgXcQ" ++ ".mp3") = false ∧
    oB2Stuck.metaErr = none ∧ oB2Stuck.dlErr = none ∧
    (pollFrom oB2Stuck.access 10 0).2 ≤ 10 ∧
    (downloadAudioB2 oB2Stuck ⟨[], [], ⟨[]⟩⟩ "dQw4w9WgXcQ").res =
      Except.error "Download completed but file not accessible" := by
  refine ⟨by decide, rfl, rfl, ?_, ?_⟩
  · exact (claim_c8 oB2Stuck ⟨[], [], ⟨[]⟩⟩ "dQw4w9WgXcQ").1
  · exact (claim_c8 oB2Stuck ⟨[], [], ⟨[]⟩⟩ "dQw4w9WgXcQ").2
      (by decide) rfl rfl (fun i _ => rfl)

/-- Claim C9: deleting an existing asset succeeds (true, HTTP 200) and a
second delete of the same identifier reports absence (false, HTTP 404)
without rejecting. -/
theorem claim_c9 (st : FsState) (id : String) (f : FileEntry)
    (hf : lookupFile st (id ++ ".mp3") = some f) :
    (deleteAudio noErr st id).1 = Except.ok true ∧
    (deleteHandlerFs noErr st id).resp.status = 200 ∧
    lookupFile (deleteAudio noErr st id).2 (id ++ ".mp3") = none ∧
    (deleteAudio noErr (deleteAudio noErr st id).2 id).1 = Except.ok false ∧
    (deleteAudio noErr (deleteAudio noErr st id).2 id).2 = (deleteAudio noErr st id).2 ∧
    (deleteHandlerFs noErr (deleteAudio noErr st id).2 id).resp.status = 404 ∧
    (deleteHandlerFs noErr (deleteAudio noErr st id).2 id).resp.errorMsg =
      some "Audio file not found" := by
  have hex : fileExists st (id ++ ".mp3") = true := by
    rw [fileExists, hf]
    rfl
  have hun : noErr.unlinkErr (id ++ ".mp3") = false := rfl
  have hdel : deleteAudio noErr st id =
      (Except.ok true, ⟨st.files.filter (fun g => !(g.name == id ++ ".mp3"))⟩) := by
    rw [deleteAudio]
    rw [if_neg (by rw [hun]; exact Bool.false_ne_true), if_pos hex]
  have hnone : lookupFile (⟨st.files.filter (fun g => !(g.name == id ++ ".mp3"))⟩ : FsState)
      (id ++ ".mp3") = none := by
    rw [lookupFile]
    apply List.find?_eq_none.mpr
    intro g hg
    have := (List.mem_filter.mp hg).2
    simp only [Bool.not_eq_true'] at this
    simp [this]
  have hex2 : fileExists (⟨st.files.filter (fun g => !(g.name == id ++ ".mp3"))⟩ : FsState)
      (id ++ ".mp3") = false := by
    rw [fileExists, hnone]
    rfl
  have hdel2 : deleteAudio noErr (⟨st.files.filter (fun g => !(g.name == id ++ ".mp3"))⟩ : FsState) id =
      (Except.ok false, ⟨st.files.filter (fun g => !(g.name == id ++ ".mp3"))⟩) := by
    rw [deleteAudio]
    rw [if_neg (by rw [hun]; exact Bool.false_ne_true),
        if_neg (by rw [hex2]; exact Bool.false_ne_true)]
  refine ⟨by rw [hdel], ?_, ?_, ?_, ?_, ?_, ?_⟩
  · rw [deleteHandlerFs, hdel]
  · rw [hdel]
    exact hnone
  · rw [hdel]
    rw [hdel2]
  · rw [hdel]
    rw [hdel2]
  · rw [deleteHandlerFs, hdel, hdel2]
  · rw [deleteHandlerFs, hdel, hdel2]

/-- Witness for C9 at a one-asset cache. -/
theorem claim_c9_witness :
    lookupFile stServe ("abcdefghijk" ++ ".mp3") =
      some ⟨"abcdefghijk.mp3", 5, 0, [10, 11, 12, 13, 14]⟩ ∧
    (deleteAudio noErr stServe "abcdefghijk").1 = Except.ok true ∧
    (deleteHandlerFs noErr stServe "abcdefghijk").resp.status = 200 ∧
    (deleteAudio noErr (deleteAudio noErr stServe "abcdefghijk").2 "abcdefghijk").1 =
      Except.ok false ∧
    (deleteHandlerFs noErr (deleteAudio noErr stServe "abcdefghijk").2 "abcdefghijk").resp.status
      = 404 := by
  have h := claim_c9 stServe "abcdefghijk" ⟨"abcdefghijk.mp3", 5, 0, [10, 11, 12, 13, 14]⟩
    (by decide)
  exact ⟨by decide, h.1, h.2.1, h.2.2.2.1, h.2.2.2.2.2.1⟩

/-- Claim C10: the identifier-shape validation guards only the GET
stream-serving route: for any string at all, the info endpoint proceeds
without rejection into the download path (one existence check, and a
fetch when uncached), and the delete endpoint proceeds without rejection,
unlinking the entry keyed by the raw identifier with .mp3 appended. -/
theorem claim_c10 (o : FetchOracle) (e : ErrOracle) (maxMB : Int)
    (audio temp st : FsState) (id : String) :
    (infoHandlerFs o e maxMB audio temp id).rejectedInvalid = false ∧
    (infoHandlerFs o e maxMB audio temp id).trace.existsChecks = 1 ∧
    (fileExists audio (id ++ ".mp3") = false →
      (infoHandlerFs o e maxMB audio temp id).trace.extractor = 1) ∧
    (deleteHandlerFs e st id).rejectedInvalid = false ∧
    (deleteAudio noErr st id).2.files =
      st.files.filter (fun f => !(f.name == id ++ ".mp3")) := by
  refine ⟨rfl, ?_, ?_, rfl, ?_⟩
  · show (downloadAudioFs o e maxMB audio temp id).trace.existsChecks = 1
    exact downloadAudioFs_existsChecks o e maxMB audio temp id
  · intro hex
    show (downloadAudioFs o e maxMB audio temp id).trace.extractor = 1
    exact downloadAudioFs_extractor o e maxMB audio temp id hex
  · have hun : noErr.unlinkErr (id ++ ".mp3") = false := rfl
    by_cases hex : fileExists st (id ++ ".mp3") = true
    · rw [deleteAudio]
      rw [if_neg (by rw [hun]; exact Bool.false_ne_true), if_pos hex]
    · rw [deleteAudio]
      rw [if_neg (by rw [hun]; exact Bool.false_ne_true), if_neg hex]
      have hnone : lookupFile st (id ++ ".mp3") = none := by
        rw [fileExists] at hex
        cases hl : lookupFile st (id ++ ".mp3") with
        | none => rfl
        | some g => rw [hl] at hex; exact absurd rfl hex
      symm
      apply List.filter_eq_self.mpr
      intro g hg
      rw [Bool.not_eq_true']
      by_contra hgn
      rw [Bool.not_eq_false] at hgn
      have : lookupFile st (id ++ ".mp3") ≠ none := by
        rw [lookupFile]
        intro hfind
        have := List.find?_eq_none.mp hfind g hg
        exact this hgn
      exact this hnone

/-- Witness for C10 at a path-traversal-shaped identifier that no route
rejects. -/
theorem claim_c10_witness :
    (infoHandlerFs oFetchFail noErr 5000 ⟨[]⟩ ⟨[]⟩ "../../etc/x").rejectedInvalid = false ∧
    fileExists (⟨[]⟩ : FsState) ("../../etc/x" ++ ".mp3") = false ∧
    (infoHandlerFs oFetchFail noErr 5000 ⟨[]⟩ ⟨[]⟩ "../../etc/x").trace.extractor = 1 ∧
    (deleteHandlerFs noErr stServe "../../etc/x").rejectedInvalid = false ∧
    (deleteAudio noErr stServe "../../etc/x").2.files =
      stServe.files.filter (fun f => !(f.name == "../../etc/x" ++ ".mp3")) := by
  have h := claim_c10 oFetchFail noErr 5000 ⟨[]⟩ ⟨[]⟩ stServe "../../etc/x"
  exact ⟨h.1, by decide, h.2.2.1 (by decide), h.2.2.2.1, h.2.2.2.2⟩

/-- Counterexample to claim C5: on the filesystem variant, a GET info
request for an uncached identifier does invoke the Source Fetcher (the
handler delegates to downloadAudio, whose fetch path runs): here the
extractor is called once, where the claim requires zero calls. -/
theorem c5_counterexample :
    (infoHandlerFs oFetchOk noErr 5000 ⟨[]⟩ ⟨[]⟩ "dQw4w9WgXcQ").trace.extractor = 1 := rfl

/-- Claim C5 as amended: the blob-store info endpoint never downloads (a
pure Track lookup), while the filesystem info endpoint calls
downloadAudio, hence performs no Source Fetcher download exactly when the
asset is already cached and performs one when it is not. -/
theorem claim_c5_amended (w : B2World) (o : FetchOracle) (e : ErrOracle) (maxMB : Int)
    (audio temp : FsState) (id : String) :
    (infoHandlerB2 w id).trace = ⟨0, 0, 0⟩ ∧
    (fileExists audio (id ++ ".mp3") = true →
      (infoHandlerFs o e maxMB audio temp id).trace.extractor = 0) ∧
    (fileExists audio (id ++ ".mp3") = false →
      (infoHandlerFs o e maxMB audio temp id).trace.extractor = 1) := by
  refine ⟨rfl, ?_, ?_⟩
  · intro hex
    show (downloadAudioFs o e maxMB audio temp id).trace.extractor = 0
    rw [downloadAudioFs, if_pos hex]
  · intro hex
    show (downloadAudioFs o e maxMB audio temp id).trace.extractor = 1
    exact downloadAudioFs_extractor o e maxMB audio temp id hex

/-- Witness for the amended C5: a cached filesystem asset yields no
extractor call, an uncached one yields exactly one, and the blob-store
info endpoint records no calls at all. -/
theorem claim_c5_amended_witness :
    (infoHandlerB2 ⟨[], [], ⟨[]⟩⟩ "dQw4w9WgXcQ").trace = ⟨0, 0, 0⟩ ∧
    fileExists stServe ("abcdefghijk" ++ ".mp3") = true ∧
    (infoHandlerFs oFetchOk noErr 5000 stServe ⟨[]⟩ "abcdefghijk").trace.extractor = 0 ∧
    fileExists (⟨[]⟩ : FsState) ("dQw4w9WgXcQ" ++ ".mp3") = false ∧
    (infoHandlerFs oFetchOk noErr 5000 ⟨[]⟩ ⟨[]⟩ "dQw4w9WgXcQ").trace.extractor = 1 := by
  refine ⟨(claim_c5_amended ⟨[], [], ⟨[]⟩⟩ oFetchOk noErr 5000 ⟨[]⟩ ⟨[]⟩ "dQw4w9WgXcQ").1,
    by decide, ?_, by decide, ?_⟩
  · exact (claim_c5_amended ⟨[], [], ⟨[]⟩⟩ oFetchOk noErr 5000 stServe ⟨[]⟩ "abcdefghijk").2.1
      (by decide)
  · exact (claim_c5_amended ⟨[], [], ⟨[]⟩⟩ oFetchOk noErr 5000 ⟨[]⟩ ⟨[]⟩ "dQw4w9WgXcQ").2.2
      (by decide)

/-- Counterexample to claim C6: injected disk failures in the capacity
manager accounting and in delete are not surfaced: a failing stat makes
getFileSize resolve with 0, and a failing unlink makes deleteAudio
resolve with false (reported as not-found), neither rejecting. -/
theorem c6_counterexample :
    eBad.statErr "a.mp3" = true ∧
    getFileSize eBad stBad "a.mp3" = Except.ok 0 ∧
    eBad.unlinkErr ("b" ++ ".mp3") = true ∧
    deleteAudio eBad stBad "b" = (Except.ok false, stBad) :=
  ⟨rfl, rfl, rfl, rfl⟩

/-- Claim C6 as amended: the service catches disk I/O failures in
getFileSize, getStorageUsage, cleanupOldFiles and deleteAudio and maps
them to fallback results (0 MB, 0 MB, silent completion, false) instead
of propagating them; the download path itself does propagate the
underlying failure with its message. -/
theorem claim_c6_amended (e : ErrOracle) (maxMB : Int) (st : FsState) (n id : String) :
    (getFileSize e st n).isOk = true ∧
    (getStorageUsage e st).isOk = true ∧
    (cleanupOldFiles e maxMB st).1 = Except.ok () ∧
    (deleteAudio e st id).1.isOk = true ∧
    (∀ (o : FetchOracle) (audio temp : FsState) (m : String),
      o.dlErr = some m → fileExists audio (id ++ ".mp3") = false →
      (downloadAudioFs o e maxMB audio temp id).res =
        Except.error ("Failed to download audio: " ++ m)) := by
  refine ⟨rfl, rfl, ?_, ?_, ?_⟩
  · rw [cleanupOldFiles]
    by_cases h1 : okVal (getStorageUsage e st) > (maxMB : ℚ)
    · rw [if_pos h1]
      by_cases h2 : e.readdirErr = true
      · rw [if_pos h2]
      · rw [if_neg h2]
        by_cases h3 : st.files.any (fun f => e.statErr f.name) = true
        · rw [if_pos h3]
        · rw [if_neg h3]
    · rw [if_neg h1]
  · rw [deleteAudio]
    by_cases h1 : e.unlinkErr (id ++ ".mp3") = true
    · rw [if_pos h1]
      rfl
    · rw [if_neg h1]
      by_cases h2 : fileExists st (id ++ ".mp3") = true
      · rw [if_pos h2]
        rfl
      · rw [if_neg h2]
        rfl
  · intro o audio temp m hdl hex
    rw [downloadAudioFs, if_neg (by rw [hex]; exact Bool.false_ne_true), hdl]

/-- Witness for the amended C6 under the concrete failing oracle. -/
theorem claim_c6_amended_witness :
    (getFileSize eBad stBad "a.mp3").isOk = true ∧
    (getStorageUsage eBad stBad).isOk = true ∧
    (cleanupOldFiles eBad 5000 stBad).1 = Except.ok () ∧
    (deleteAudio eBad stBad "b").1.isOk = true ∧
    oFetchFail.dlErr = some "boom" ∧
    fileExists (⟨[]⟩ : FsState) ("dQw4w9WgXcQ" ++ ".mp3") = false ∧
    (downloadAudioFs oFetchFail eBad 5000 ⟨[]⟩ ⟨[]⟩ "dQw4w9WgXcQ").res =
      Except.error ("Failed to download audio: " ++ "boom") := by
  have h := claim_c6_amended eBad 5000 stBad "a.mp3" "b"
  refine ⟨h.1, h.2.1, h.2.2.1, h.2.2.2.1, rfl, by decide, ?_⟩
  exact (claim_c6_amended eBad 5000 ⟨[]⟩ "a.mp3" "dQw4w9WgXcQ").2.2.2.2 oFetchFail ⟨[]⟩ ⟨[]⟩
    "boom" rfl (by decide)

/-- Helper: a NaN start makes the read-stream construction throw. -/
theorem createReadStreamSlice_nan (content : List Nat) (y : JSNum) :
    createReadStreamSlice content JSNum.nan y = Except.error "ERR_OUT_OF_RANGE" := by
  cases y <;> rfl

/-- Helper: for a valid identifier whose asset is cached, the stream
handler serves that file, mapping a stream-construction throw to the 500
response of the route catch. -/
theorem streamHandlerFs_cached (o : FetchOracle) (e : ErrOracle) (maxMB : Int)
    (audio temp : FsState) (range : Option String) (id : String) (f : FileEntry)
    (hv : isValidVideoId id = true)
    (hf : lookupFile audio (id ++ ".mp3") = some f) :
    (streamHandlerFs o e maxMB audio temp range id).resp =
      (match serveFile f.content f.size range with
       | Except.error _ => { status := 500, errorMsg := some "Streaming failed" }
       | Except.ok r2 => r2) := by
  have hex : fileExists audio (id ++ ".mp3") = true := by
    rw [fileExists, hf]
    rfl
  have hd : downloadAudioFs o e maxMB audio temp id =
      { res := Except.ok ⟨id, id ++ ".mp3", true⟩, audio := audio, temp := temp
        trace := ⟨1, 0, 0, 0⟩ } := by
    rw [downloadAudioFs, if_pos hex]
  rw [streamHandlerFs, if_neg (by rw [hv]; exact Bool.false_ne_true)]
  simp only [hd, hf]

/-- Claim C2: for a cached asset of size S and a Range header parsing to
start-end with 0 <= start <= end < S, the stream endpoint answers 206
with Content-Range bytes start-end/S, Content-Length end-start+1, and a
body of exactly the bytes [start, end+1) of the stored asset; a parts
array with an empty second element (end omitted) defaults end to S-1. -/
theorem claim_c2 (o : FetchOracle) (e : ErrOracle) (maxMB : Int) (audio temp : FsState)
    (id hdr : String) (f : FileEntry) (s en : Int)
    (hf : lookupFile audio (id ++ ".mp3") = some f)
    (hv : isValidVideoId id = true)
    (hwf : f.size = f.content.length)
    (hparse : parseRangeHeader hdr f.size = (JSNum.int s, JSNum.int en))
    (hs : 0 ≤ s) (hse : s ≤ en) (hes : en < (f.size : Int)) :
    (streamHandlerFs o e maxMB audio temp (some hdr) id).resp.status = 206 ∧
    (streamHandlerFs o e maxMB audio temp (some hdr) id).resp.contentRange =
      some ("bytes " ++ toString s ++ "-" ++ toString en ++ "/" ++ Nat.repr f.size) ∧
    (streamHandlerFs o e maxMB audio temp (some hdr) id).resp.contentLength =
      some (JSNum.int (en - s + 1)) ∧
    (streamHandlerFs o e maxMB audio temp (some hdr) id).resp.body =
      (f.content.drop s.toNat).take (en - s + 1).toNat ∧
    ((streamHandlerFs o e maxMB audio temp (some hdr) id).resp.body).length =
      (en - s + 1).toNat ∧
    (∀ (hdr2 p0 : String), rangeParts hdr2 = [p0, ""] →
      (parseRangeHeader hdr2 f.size).2 = JSNum.int ((f.size : Int) - 1)) := by
  have hne : hdr ≠ "" := by
    rintro rfl
    have h0 : parseRangeHeader "" f.size = (JSNum.nan, JSNum.int ((f.size : Int) - 1)) := rfl
    rw [h0] at hparse
    exact JSNum.noConfusion (congrArg Prod.fst hparse)
  have hserve := streamHandlerFs_cached o e maxMB audio temp (some hdr) id f hv hf
  have hok : createReadStreamSlice f.content (JSNum.int s) (JSNum.int en) =
      Except.ok ((f.content.drop s.toNat).take (en - s + 1).toNat) := by
    rw [createReadStreamSlice]
    rw [if_neg (by push_neg; omega)]
  have hsf : serveFile f.content f.size (some hdr) =
      Except.ok
        { status := 206
          contentRange := some ("bytes " ++ toString s ++ "-" ++ toString en ++ "/" ++ Nat.repr f.size)
          contentLength := some (JSNum.int (en - s + 1))
          contentType := some "audio/mpeg"
          body := (f.content.drop s.toNat).take (en - s + 1).toNat } := by
    rw [serveFile]
    simp only [Option.getD_some]
    rw [if_pos hne]
    simp only [hparse, hok, JSNum.sub, JSNum.add, JSNum.render]
  have hbody : (streamHandlerFs o e maxMB audio temp (some hdr) id).resp =
      { status := 206
        contentRange := some ("bytes " ++ toString s ++ "-" ++ toString en ++ "/" ++ Nat.repr f.size)
        contentLength := some (JSNum.int (en - s + 1))
        contentType := some "audio/mpeg"
        body := (f.content.drop s.toNat).take (en - s + 1).toNat } := by
    rw [hserve, hsf]
  refine ⟨by rw [hbody], by rw [hbody], by rw [hbody], by rw [hbody], ?_, ?_⟩
  · rw [hbody]
    show ((f.content.drop s.toNat).take (en - s + 1).toNat).length = (en - s + 1).toNat
    rw [List.length_take, List.length_drop]
    omega
  · intro hdr2 p0 hp
    rw [parseRangeHeader]
    simp only [hp]
    rfl

/-- Witness for C2: the asset abcdefghijk.mp3 of size 5 served with
Range bytes=1-3. -/
theorem claim_c2_witness :
    lookupFile stServe ("abcdefghijk" ++ ".mp3") =
      some ⟨"abcdefghijk.mp3", 5, 0, [10, 11, 12, 13, 14]⟩ ∧
    parseRangeHeader "bytes=1-3" 5 = (JSNum.int 1, JSNum.int 3) ∧
    (streamHandlerFs oFetchOk noErr 5000 stServe ⟨[]⟩ (some "bytes=1-3") "abcdefghijk").resp.status
      = 206 ∧
    (streamHandlerFs oFetchOk noErr 5000 stServe ⟨[]⟩
      (some "bytes=1-3") "abcdefghijk").resp.contentRange =
      some ("bytes " ++ toString (1 : Int) ++ "-" ++ toString (3 : Int) ++ "/" ++ Nat.repr 5) ∧
    (streamHandlerFs oFetchOk noErr 5000 stServe ⟨[]⟩
      (some "bytes=1-3") "abcdefghijk").resp.contentLength = some (JSNum.int 3) ∧
    (streamHandlerFs oFetchOk noErr 5000 stServe ⟨[]⟩
      (some "bytes=1-3") "abcdefghijk").resp.body =
      (([10, 11, 12, 13, 14] : List Nat).drop 1).take 3 := by
  have h := claim_c2 oFetchOk noErr 5000 stServe ⟨[]⟩ "abcdefghijk" "bytes=1-3"
    ⟨"abcdefghijk.mp3", 5, 0, [10, 11, 12, 13, 14]⟩ 1 3
    (by decide) (by decide) (by decide) (by decide) (by decide) (by decide) (by decide)
  exact ⟨by decide, by decide, h.1, h.2.1, by simpa using h.2.2.1, by simpa using h.2.2.2.1⟩

/-- Counterexample to claim C7: at the malformed header bytes=abc-3 on a
cached 5-byte asset the start parses to NaN, but the endpoint answers
500 Streaming failed, not the claimed 206 with NaN-derived headers: the
read-stream construction (stream.js line 52) throws on the NaN start
before writeHead(206) at line 54, landing in the route catch. -/
theorem c7_counterexample :
    (parseRangeHeader "bytes=abc-3" 5).1 = JSNum.nan ∧
    (streamHandlerFs oFetchOk noErr 5000 stServe ⟨[]⟩
      (some "bytes=abc-3") "abcdefghijk").resp.status = 500 ∧
    (streamHandlerFs oFetchOk noErr 5000 stServe ⟨[]⟩
      (some "bytes=abc-3") "abcdefghijk").resp.status ≠ 206 ∧
    (streamHandlerFs oFetchOk noErr 5000 stServe ⟨[]⟩
      (some "bytes=abc-3") "abcdefghijk").resp.contentLength = none ∧
    (streamHandlerFs oFetchOk noErr 5000 stServe ⟨[]⟩
      (some "bytes=abc-3") "abcdefghijk").resp.contentRange = none ∧
    (streamHandlerFs oFetchOk noErr 5000 stServe ⟨[]⟩
      (some "bytes=abc-3") "abcdefghijk").resp.errorMsg = some "Streaming failed" :=
  ⟨rfl, rfl, by decide, rfl, rfl, rfl⟩

/-- Claim C7 as amended: a Range header with a non-numeric start is not
specially validated (no 400 or 416 branch exists and parsing does yield
NaN), but the NaN start makes the read-stream construction throw before
the 206 headers are written, so the route catch answers 500 Streaming
failed and the NaN-derived 206 response is never emitted. -/
theorem claim_c7_amended (o : FetchOracle) (e : ErrOracle) (maxMB : Int) (audio temp : FsState)
    (id hdr : String) (f : FileEntry)
    (hf : lookupFile audio (id ++ ".mp3") = some f)
    (hv : isValidVideoId id = true)
    (hne : hdr ≠ "")
    (hnan : (parseRangeHeader hdr f.size).1 = JSNum.nan) :
    (streamHandlerFs o e maxMB audio temp (some hdr) id).resp.status = 500 ∧
    (streamHandlerFs o e maxMB audio temp (some hdr) id).resp.status ≠ 400 ∧
    (streamHandlerFs o e maxMB audio temp (some hdr) id).resp.status ≠ 416 ∧
    (streamHandlerFs o e maxMB audio temp (some hdr) id).resp.status ≠ 206 ∧
    (streamHandlerFs o e maxMB audio temp (some hdr) id).resp.errorMsg =
      some "Streaming failed" ∧
    (streamHandlerFs o e maxMB audio temp (some hdr) id).resp.contentRange = none ∧
    (streamHandlerFs o e maxMB audio temp (some hdr) id).resp.contentLength = none ∧
    serveFile f.content f.size (some hdr) = Except.error "ERR_OUT_OF_RANGE" := by
  have hserve := streamHandlerFs_cached o e maxMB audio temp (some hdr) id f hv hf
  have hsf : serveFile f.content f.size (some hdr) = Except.error "ERR_OUT_OF_RANGE" := by
    rw [serveFile]
    simp only [Option.getD_some]
    rw [if_pos hne]
    simp only [hnan, createReadStreamSlice_nan]
  have hbody : (streamHandlerFs o e maxMB audio temp (some hdr) id).resp =
      { status := 500, errorMsg := some "Streaming failed" } := by
    rw [hserve, hsf]
  refine ⟨by rw [hbody], ?_, ?_, ?_, by rw [hbody], by rw [hbody], by rw [hbody], hsf⟩
  · rw [hbody]
    show (500 : Nat) ≠ 400
    decide
  · rw [hbody]
    show (500 : Nat) ≠ 416
    decide
  · rw [hbody]
    show (500 : Nat) ≠ 206
    decide

/-- Witness for the amended C7: the malformed header bytes=abc-3 on the
cached 5-byte asset yields the 500 of the route catch. -/
theorem claim_c7_amended_witness :
    lookupFile stServe ("abcdefghijk" ++ ".mp3") =
      some ⟨"abcdefghijk.mp3", 5, 0, [10, 11, 12, 13, 14]⟩ ∧
    (parseRangeHeader "bytes=abc-3" 5).1 = JSNum.nan ∧
    (streamHandlerFs oFetchOk noErr 5000 stServe ⟨[]⟩
      (some "bytes=abc-3") "abcdefghijk").resp.status = 500 ∧
    (streamHandlerFs oFetchOk noErr 5000 stServe ⟨[]⟩
      (some "bytes=abc-3") "abcdefghijk").resp.errorMsg = some "Streaming failed" ∧
    serveFile [10, 11, 12, 13, 14] 5 (some "bytes=abc-3") =
      Except.error "ERR_OUT_OF_RANGE" := by
  have h := claim_c7_amended oFetchOk noErr 5000 stServe ⟨[]⟩ "abcdefghijk" "bytes=abc-3"
    ⟨"abcdefghijk.mp3", 5, 0, [10, 11, 12, 13, 14]⟩
    (by decide) (by decide) (by decide) (by decide)
  exact ⟨by decide, by decide, h.1, h.2.2.2.2.1, h.2.2.2.2.2.2.2⟩

/-- Helper: boolean membership for string lists. -/
theorem contains_eq_true_iff {l : List String} {a : String} :
    l.contains a = true ↔ a ∈ l := by
  simp [List.contains, List.elem_iff]

/-- Helper: the cleanup comparator is transitive. -/
theorem atimeLe_trans : ∀ (a b c : FileEntry),
    atimeLe a b = true → atimeLe b c = true → atimeLe a c = true := by
  intro a b c hab hbc
  simp only [atimeLe, decide_eq_true_eq] at *
  omega

/-- Helper: the cleanup comparator is total. -/
theorem atimeLe_total : ∀ (a b : FileEntry), (atimeLe a b || atimeLe b a) = true := by
  intro a b
  simp only [atimeLe, Bool.or_eq_true, decide_eq_true_eq]
  omega

/-- Helper: the cleanup sort is a permutation of the listing. -/
theorem sortByAtime_perm (l : List FileEntry) : (sortByAtime l).Perm l :=
  List.mergeSort_perm l atimeLe

/-- Helper: the cleanup sort is sorted by ascending access time. -/
theorem sortByAtime_sorted (l : List FileEntry) :
    (sortByAtime l).Pairwise (fun a b => a.atime ≤ b.atime) := by
  have h := List.sorted_mergeSort atimeLe_trans atimeLe_total l
  exact h.imp (fun hab => by simpa [atimeLe] using hab)

/-- Helper: the cleanup sort is stable: for each access time, the
entries carrying it keep their enumeration order. -/
theorem sortByAtime_stable (l : List FileEntry) (t : Int) :
    (sortByAtime l).filter (fun f => f.atime == t) = l.filter (fun f => f.atime == t) := by
  have hsub : (l.filter (fun f => f.atime == t)).Sublist l := List.filter_sublist l
  have hpair : (l.filter (fun f => f.atime == t)).Pairwise (fun a b => atimeLe a b = true) := by
    apply List.pairwise_of_forall_mem_list
    intro a ha b hb
    have ha2 := (List.mem_filter.mp ha).2
    have hb2 := (List.mem_filter.mp hb).2
    rw [beq_iff_eq] at ha2 hb2
    simp [atimeLe, ha2, hb2]
  have h1 : (l.filter (fun f => f.atime == t)).Sublist (sortByAtime l) :=
    List.sublist_mergeSort atimeLe_trans atimeLe_total hpair hsub
  have h2 : (l.filter (fun f => f.atime == t)).Sublist
      ((sortByAtime l).filter (fun f => f.atime == t)) := by
    have h3 := List.Sublist.filter (fun f => f.atime == t) h1
    rwa [List.filter_eq_self.mpr (fun a ha => (List.mem_filter.mp ha).2)] at h3
  have hlen : ((sortByAtime l).filter (fun f => f.atime == t)).length =
      (l.filter (fun f => f.atime == t)).length :=
    ((sortByAtime_perm l).filter (fun f => f.atime == t)).length_eq
  exact (h2.eq_of_length hlen.symm).symm

/-- Helper: with no injected failures, unlinking a duplicate-free list of
present names removes exactly those entries, in place. -/
theorem unlinkSeq_noErr : ∀ (vs : List String) (fs : List FileEntry),
    vs.Nodup → (∀ n ∈ vs, ∃ f ∈ fs, f.name = n) →
    unlinkSeq noErr fs vs = (fs.filter (fun f => !(vs.contains f.name)), false) := by
  intro vs
  induction vs with
  | nil =>
    intro fs _ _
    rw [unlinkSeq]
    simp
  | cons n ns ih =>
    intro fs hnd hmem
    obtain ⟨f0, hf0mem, hf0name⟩ := hmem n (by simp)
    have hany : fs.any (fun f => f.name == n) = true :=
      List.any_eq_true.mpr ⟨f0, hf0mem, by simp [hf0name]⟩
    rw [unlinkSeq]
    rw [if_neg (show ¬((noErr.unlinkErr n) = true) from by simp [noErr]), if_pos hany]
    have hmem2 : ∀ n2 ∈ ns, ∃ f ∈ fs.filter (fun f => !(f.name == n)), f.name = n2 := by
      intro n2 hn2
      obtain ⟨g, hg, hgname⟩ := hmem n2 (List.mem_cons_of_mem n hn2)
      have hne : n2 ≠ n := by
        rintro rfl
        exact (List.nodup_cons.mp hnd).1 hn2
      refine ⟨g, List.mem_filter.mpr ⟨hg, ?_⟩, hgname⟩
      simp [hgname, hne]
    rw [ih (fs.filter (fun f => !(f.name == n))) (List.nodup_cons.mp hnd).2 hmem2]
    rw [List.filter_filter]
    refine Prod.ext ?_ rfl
    show List.filter _ fs = List.filter _ fs
    apply List.filter_congr
    intro a _
    show (!(ns.contains a.name) && !(a.name == n)) = !((n :: ns).contains a.name)
    have hcons : (n :: ns).contains a.name = ((a.name == n) || ns.contains a.name) := by
      by_cases h1 : (a.name == n) = true
      · have hm : (n :: ns).contains a.name = true :=
          contains_eq_true_iff.mpr (by rw [eq_of_beq h1]; exact List.mem_cons_self n ns)
        rw [hm, h1, Bool.true_or]
      · have h1f : (a.name == n) = false := by rwa [Bool.not_eq_true] at h1
        rw [h1f, Bool.false_or]
        by_cases h2 : ns.contains a.name = true
        · rw [h2]
          exact contains_eq_true_iff.mpr (List.mem_cons_of_mem n (contains_eq_true_iff.mp h2))
        · have h2f : ns.contains a.name = false := by rwa [Bool.not_eq_true] at h2
          rw [h2f, ← Bool.not_eq_true]
          intro hc
          rcases List.mem_cons.mp (contains_eq_true_iff.mp hc) with h3 | h3
          · rw [h3] at h1f
            simp at h1f
          · rw [contains_eq_true_iff.mpr h3] at h2f
            exact absurd h2f (by decide)
    rw [hcons, Bool.not_or, Bool.and_comm]

/-- Helper: a filter splits across a take-drop decomposition. -/
theorem filter_take_drop {α : Type} (p : α → Bool) (l : List α) (k : Nat) :
    l.filter p = (l.take k).filter p ++ (l.drop k).filter p := by
  conv_lhs => rw [← List.take_append_drop k l]
  rw [List.filter_append]

/-- Claim C1: a cleanup invocation on a duplicate-free directory whose
usage is at or under the ceiling deletes nothing and leaves the storage
stats unchanged; on a directory whose usage exceeds the ceiling it
deletes exactly ceil(0.2*N) of the N assets, namely the first
ceil(0.2*N) of the stable sort by ascending last-access time (so the
oldest-accessed ones, ties broken by enumeration order), keeping the
rest in enumeration order. -/
theorem claim_c1 (maxMB : Int) (st : FsState)
    (hnd : (st.files.map (fun f => f.name)).Nodup) :
    (okVal (getStorageUsage noErr st) ≤ (maxMB : ℚ) →
      (cleanupOldFiles noErr maxMB st).2 = st ∧
      getStorageStats noErr maxMB (cleanupOldFiles noErr maxMB st).2 =
        getStorageStats noErr maxMB st) ∧
    (okVal (getStorageUsage noErr st) > (maxMB : ℚ) →
      deleteCount st.files.length = ⌈(0.2 : ℚ) * (st.files.length : ℚ)⌉₊ ∧
      deleteCount st.files.length ≤ st.files.length ∧
      (cleanupOldFiles noErr maxMB st).2.files =
        st.files.filter (fun f =>
          !((((sortByAtime st.files).take (deleteCount st.files.length)).map
            (fun g => g.name)).contains f.name)) ∧
      ((cleanupOldFiles noErr maxMB st).2.files).length =
        st.files.length - deleteCount st.files.length ∧
      ((cleanupOldFiles noErr maxMB st).2.files).Perm
        ((sortByAtime st.files).drop (deleteCount st.files.length)) ∧
      (sortByAtime st.files).Perm st.files ∧
      (sortByAtime st.files).Pairwise (fun a b => a.atime ≤ b.atime) ∧
      (∀ t : Int, (sortByAtime st.files).filter (fun f => f.atime == t) =
        st.files.filter (fun f => f.atime == t))) := by
  constructor
  · intro h
    have hng : ¬ (okVal (getStorageUsage noErr st) > (maxMB : ℚ)) := not_lt.mpr h
    have : (cleanupOldFiles noErr maxMB st).2 = st := by
      simp only [cleanupOldFiles]
      rw [if_neg hng]
    exact ⟨this, by rw [this]⟩
  · intro h
    have hperm := sortByAtime_perm st.files
    have hsorted := sortByAtime_sorted st.files
    have hstable := sortByAtime_stable st.files
    have hndS : ((sortByAtime st.files).map (fun f => f.name)).Nodup :=
      ((hperm.map (fun f => f.name)).nodup_iff).mpr hnd
    have hknat : deleteCount st.files.length = ⌈(0.2 : ℚ) * (st.files.length : ℚ)⌉₊ := by
      rw [deleteCount, mul_comm]
    have hkle : deleteCount st.files.length ≤ st.files.length := by
      rw [deleteCount]
      apply Nat.ceil_le.mpr
      have h0 : (0 : ℚ) ≤ (st.files.length : ℚ) := Nat.cast_nonneg _
      nlinarith
    have hndV : ((((sortByAtime st.files).take (deleteCount st.files.length)).map
        (fun g => g.name))).Nodup := by
      rw [List.map_take]
      exact List.Nodup.sublist (List.take_sublist _ _) hndS
    have hmemV : ∀ n ∈ (((sortByAtime st.files).take (deleteCount st.files.length)).map
        (fun g => g.name)), ∃ f ∈ st.files, f.name = n := by
      intro n hn
      obtain ⟨g, hg, rfl⟩ := List.mem_map.mp hn
      exact ⟨g, hperm.subset (List.take_subset _ _ hg), rfl⟩
    have hline : (cleanupOldFiles noErr maxMB st).2.files =
        st.files.filter (fun f =>
          !((((sortByAtime st.files).take (deleteCount st.files.length)).map
            (fun g => g.name)).contains f.name)) := by
      simp only [cleanupOldFiles]
      rw [if_pos h]
      rw [if_neg (show ¬((noErr.readdirErr) = true) from by simp [noErr])]
      rw [if_neg (show ¬((st.files.any (fun f => noErr.statErr f.name)) = true) from by
        simp [noErr])]
      rw [unlinkSeq_noErr _ _ hndV hmemV]
    have hfilterA : ((sortByAtime st.files).take (deleteCount st.files.length)).filter
        (fun f => !((((sortByAtime st.files).take (deleteCount st.files.length)).map
          (fun g => g.name)).contains f.name)) = [] := by
      apply List.filter_eq_nil_iff.mpr
      intro a ha hpa
      have hc : (((sortByAtime st.files).take (deleteCount st.files.length)).map
          (fun g => g.name)).contains a.name = true :=
        contains_eq_true_iff.mpr (List.mem_map_of_mem (fun g => g.name) ha)
      rw [hc] at hpa
      exact absurd hpa (by decide)
    have hfilterB : ((sortByAtime st.files).drop (deleteCount st.files.length)).filter
        (fun f => !((((sortByAtime st.files).take (deleteCount st.files.length)).map
          (fun g => g.name)).contains f.name)) =
        (sortByAtime st.files).drop (deleteCount st.files.length) := by
      apply List.filter_eq_self.mpr
      intro a ha
      rw [Bool.not_eq_eq_eq_not]
      show _ = !true
      rw [Bool.not_true, ← Bool.not_eq_true]
      intro hc
      obtain ⟨g, hg, hgname⟩ := List.mem_map.mp (contains_eq_true_iff.mp hc)
      have hsplit := hndS
      rw [← List.take_append_drop (deleteCount st.files.length) (sortByAtime st.files),
        List.map_append, List.nodup_append] at hsplit
      exact hsplit.2.2 (List.mem_map_of_mem (fun f => f.name) hg)
        (hgname ▸ List.mem_map_of_mem (fun f => f.name) ha)
    have hfper : (cleanupOldFiles noErr maxMB st).2.files.Perm
        ((sortByAtime st.files).drop (deleteCount st.files.length)) := by
      rw [hline]
      have h1 := List.Perm.filter (fun f =>
        !((((sortByAtime st.files).take (deleteCount st.files.length)).map
          (fun g => g.name)).contains f.name)) hperm.symm
      apply h1.trans
      rw [filter_take_drop _ (sortByAtime st.files) (deleteCount st.files.length),
        hfilterA, hfilterB, List.nil_append]
    refine ⟨hknat, hkle, hline, ?_, hfper, hperm, hsorted, hstable⟩
    rw [hfper.length_eq, List.length_drop, hperm.length_eq]

/-- Helper: the example 5 MB directory exceeds a 4 MB ceiling. -/
theorem stC1_over : okVal (getStorageUsage noErr stC1) > ((4 : Int) : ℚ) := by
  have e1 : (("a.mp3" : String) == "a.mp3") = true := by decide
  have e2 : (("a.mp3" : String) == "b.mp3") = false := by decide
  have e3 : (("b.mp3" : String) == "b.mp3") = true := by decide
  norm_num [getStorageUsage, getFileSize, okVal, noErr, stC1, lookupFile, mbQ, List.find?,
    e1, e2, e3]

/-- Witness for C1: two files of 2 MB and 3 MB against a 4 MB ceiling;
cleanup deletes ceil(0.4) = 1 file, the one with the older access time. -/
theorem claim_c1_witness :
    (stC1.files.map (fun f => f.name)).Nodup ∧
    okVal (getStorageUsage noErr stC1) > ((4 : Int) : ℚ) ∧
    deleteCount stC1.files.length ≤ stC1.files.length ∧
    ((cleanupOldFiles noErr 4 stC1).2.files).length =
      stC1.files.length - deleteCount stC1.files.length ∧
    ((cleanupOldFiles noErr 4 stC1).2.files).Perm
      ((sortByAtime stC1.files).drop (deleteCount stC1.files.length)) := by
  have h := (claim_c1 4 stC1 (by decide)).2 stC1_over
  exact ⟨by decide, stC1_over, h.2.1, h.2.2.2.1, h.2.2.2.2.1⟩
